import Mathlib

/-!
Verification development for the ocean-sunset renderer (`src/main.rs`).

The program's `f64` arithmetic is modelled by exact rational (and, for the
background shader which takes square roots, real) arithmetic.  Rust casts and
rounding are modelled faithfully: `as i32`/`as u8` on a nonnegative float
truncates toward zero, `as u32` additionally saturates below at `0`,
`f64::round` rounds half away from zero.  A `panic` is modelled by `Option`
(`none` = the program aborts).  All constants are the ones in the source.
-/

namespace OceanSunset

/-- One RGB pixel: three 8-bit channels (`image::Rgb<u8>`). -/
abbrev Rgb := ℕ × ℕ × ℕ

/-- `Pixel::apply`: apply `f` to every channel of a pixel. -/
def applyRgb (f : ℕ → ℕ) (c : Rgb) : Rgb := (f c.1, f c.2.1, f c.2.2)

/-- Rust float-to-integer `as` cast: truncation toward zero. -/
def rustTrunc (q : ℚ) : ℤ := if 0 ≤ q then ⌊q⌋ else ⌈q⌉

/-- Rust `f64::round`: round to the nearest integer, half away from zero
(`round` of Mathlib rounds half upward, so negative inputs are negated). -/
def rustRound {α : Type*} [LinearOrderedField α] [FloorRing α] (x : α) : ℤ :=
  if 0 ≤ x then round x else -round (-x)

/-- Rust saturating cast of an integer value into the `u32` range
(negative values become `0`). -/
def toU32 (z : ℤ) : ℕ := min z.toNat (2 ^ 32 - 1)

/-! ## Constants (`src/main.rs`, lines 56-78) -/

def WIDTH : ℕ := 640
def HEIGHT : ℕ := 480
def SUN_POSITION_Y : ℝ := 220.0
def N_VERT_LINES : ℤ := 80
def LINES_TOP : ℤ := 240
def LINES_MAX_DISTANCE : ℕ := 50
def LINES_MIN_DISTANCE : ℕ := 10
def MINIMUM_SPEED : ℚ := 0.2
def SUN_REFLECTION_A : ℝ := 100.0
def SUN_REFLECTION_B : ℝ := 350.0

/-! ## Palette (lines 10-54, 80-95) -/

inductive Color
  | Blue
  | Cyan
  | Red

/-- The three base colors of the palette (line 14). -/
def base_colors : List Rgb := [(47, 24, 200), (0, 200, 190), (200, 0, 123)]

/-- One channel of `(v as f64 * m) as u8`; the factors `0.75`, `0.5`, `0.25`
are dyadic, so the `f64` product is exact and the cast truncates. -/
def scaleChannel (m : ℚ) (v : ℕ) : ℕ := (rustTrunc ((v : ℚ) * m)).toNat

/-- The 5-color gradient generated for one base color (lines 25-49):
the base color, then the base scaled by 0.75, 0.5, 0.25, then pure black. -/
def gradient (c : Rgb) : List Rgb :=
  [c, applyRgb (scaleChannel 0.75) c, applyRgb (scaleChannel 0.5) c,
   applyRgb (scaleChannel 0.25) c, (0, 0, 0)]

/-- The lazily generated `PALETTE`: one 5-color gradient per base color. -/
def PALETTE : List (List Rgb) := base_colors.map gradient

/-- The row index produced by the `match` on lines 92-94. -/
def color_index : Color → ℕ
  | .Blue => 0
  | .Cyan => 1
  | .Red => 2

/-- `palette()` (lines 87-95): `none` models the out-of-range `panic`, and an
optional list lookup models the (possibly panicking) array indexing.  The
index is `((1.0 - value) * 4.0).round() as usize`. -/
def palette {α : Type*} [LinearOrderedField α] [FloorRing α]
    (primary : Color) (value : α) : Option Rgb :=
  if value > 1 ∨ value < 0 then none
  else (PALETTE.getD (color_index primary) [])[(rustRound ((1 - value) * 4)).toNat]?

/-! ## Line rasterizer `make_line` (lines 136-166) -/

/-- The DDA loop of `make_line` (lines 160-165): run `steps` times, each time
first accumulating the increments and then pushing the rounded point, cast to
`u32`. -/
def ddaLoop : ℕ → ℚ → ℚ → ℚ → ℚ → List (ℕ × ℕ)
  | 0, _, _, _, _ => []
  | steps + 1, x_k, y_k, x_inc, y_inc =>
      (toU32 (rustRound (x_k + x_inc)), toU32 (rustRound (y_k + y_inc)))
        :: ddaLoop steps (x_k + x_inc) (y_k + y_inc) x_inc y_inc

/-- The body of `make_line` after the endpoint swap decision (lines 145-165):
`steps = max(|dx|, |dy|)`, per-step increments `dx/steps` and `dy/steps`. -/
def ddaFrom (start endp : ℤ × ℤ) : List (ℕ × ℕ) :=
  let dx := endp.1 - start.1
  let dy := endp.2 - start.2
  let steps := max dx.natAbs dy.natAbs
  ddaLoop steps (start.1 : ℚ) (start.2 : ℚ) ((dx : ℚ) / steps) ((dy : ℚ) / steps)

/-- `make_line()` (lines 136-166): compute the slope `m`; if `m < 0` and
`start.0 < end.0`, swap the endpoints; then trace the DDA.  (When the
denominator is zero the rational slope is `0`, which coincides with the `f64`
branch outcome: `m` is then `±inf`/`NaN` and the conjunction is false either
because `m ≥ 0` or because `start.0 < end.0` fails.) -/
def make_line (start endp : ℤ × ℤ) : List (ℕ × ℕ) :=
  let m : ℚ := ((endp.2 : ℚ) - (start.2 : ℚ)) / ((endp.1 : ℚ) - (start.1 : ℚ))
  if m < 0 ∧ start.1 < endp.1 then ddaFrom endp start else ddaFrom start endp

/-! ## Grid generator `make_lines` (lines 168-215) -/

/-- A Rust integer range `lo..hi` (empty when `hi ≤ lo`). -/
def int_range (lo hi : ℤ) : List ℤ :=
  (List.range (hi - lo).toNat).map (fun k : ℕ => lo + (k : ℤ))

/-- The 81 vertical segments of the perspective grid (lines 174-181), one for
each `i` in `-N_VERT_LINES/2..N_VERT_LINES/2+1`, as the `(start, end)` pairs
handed to `make_line`.  (The exact `f64` evaluation of the top x-coordinate
lands one pixel lower for four values of `i`; no claim concerns those
x-coordinates.) -/
def vertical_segments : List ((ℤ × ℤ) × (ℤ × ℤ)) :=
  (int_range (-N_VERT_LINES / 2) (N_VERT_LINES / 2 + 1)).map (fun i : ℤ =>
    let start_rel : ℚ := 30 * (i : ℚ) / (N_VERT_LINES : ℚ)
    let end_rel : ℚ := 2 * (i : ℚ) / (N_VERT_LINES : ℚ)
    ((rustTrunc ((start_rel + 1) * (WIDTH : ℚ) / 2), (HEIGHT : ℤ)),
     (rustTrunc ((end_rel + 1) * (WIDTH : ℚ) / 2), LINES_TOP)))

/-- The horizontal-line scan loop (lines 197-212), generic in the payload
`emit` built for an emitted row: scan the remaining rows carrying the
`steps_without_line` counter; when the counter reaches the interpolated
`next_scan_line` threshold, record `(row, emit row)` and reset.  The
`i < LINES_TOP` branch is the (dead) `continue` of lines 198-201. -/
def horiz_scan {α : Type*} (emit : ℤ → α) : List ℤ → ℕ → List (ℤ × α)
  | [], _ => []
  | i :: rest, steps_without_line =>
      if i < LINES_TOP then horiz_scan emit rest (steps_without_line + 1)
      else
        let dist_from_top : ℚ :=
          ((i : ℚ) - (LINES_TOP : ℚ)) / ((HEIGHT : ℚ) - (LINES_TOP : ℚ))
        let next_scan_line : ℕ :=
          toU32 (rustTrunc (((LINES_MAX_DISTANCE - LINES_MIN_DISTANCE : ℕ) : ℚ)
            * dist_from_top + (LINES_MIN_DISTANCE : ℚ)))
        if next_scan_line ≤ steps_without_line then
          (i, emit i) :: horiz_scan emit rest 1
        else horiz_scan emit rest (steps_without_line + 1)

/-- The horizontal segment emitted at scan row `i` for frame offset `v`
(line 207): drawn at `i + (v * (dist_from_top + MINIMUM_SPEED)) as i32`. -/
def horizontal_emit (v : ℕ) (i : ℤ) : (ℤ × ℤ) × (ℤ × ℤ) :=
  let dist_from_top : ℚ :=
    ((i : ℚ) - (LINES_TOP : ℚ)) / ((HEIGHT : ℚ) - (LINES_TOP : ℚ))
  ((0, i + rustTrunc ((v : ℚ) * (dist_from_top + MINIMUM_SPEED))),
   ((WIDTH : ℤ), i + rustTrunc ((v : ℚ) * (dist_from_top + MINIMUM_SPEED))))

/-- The horizontal-line family (lines 188-212): the fixed top line at
`LINES_TOP` (line 195), the offset-compensation line (line 196), then the
segments produced by the scan loop. -/
def horizontal_segments (v : ℕ) : List ((ℤ × ℤ) × (ℤ × ℤ)) :=
  ((0, LINES_TOP), ((WIDTH : ℤ), LINES_TOP))
    :: ((0, LINES_TOP + rustTrunc ((v : ℚ) * MINIMUM_SPEED)),
        ((WIDTH : ℤ), LINES_TOP + rustTrunc ((v : ℚ) * MINIMUM_SPEED)))
    :: (horiz_scan (horizontal_emit v) (int_range LINES_TOP (HEIGHT : ℤ)) 0).map Prod.snd

/-- All segments traced by `make_lines` for frame offset `v`, in emission
order: the vertical family first, then the horizontal family. -/
def segments (v : ℕ) : List ((ℤ × ℤ) × (ℤ × ℤ)) :=
  vertical_segments ++ horizontal_segments v

/-- `make_lines()` (lines 169-215): the pixels pushed into the `lines`
vector, i.e. `make_line` applied to every generated segment in order. -/
def make_lines (v : ℕ) : List (ℕ × ℕ) :=
  (segments v).flatMap (fun s => make_line s.1 s.2)

/-! ## Background shader `background` (lines 97-133) -/

/-- `dist()` (lines 98-100), with the argument packing used at line 119:
the first pair holds the two x-values, the second the two y-values. -/
noncomputable def dist (x y : ℝ × ℝ) : ℝ :=
  Real.sqrt ((x.2 - x.1) * (x.2 - x.1) + (y.2 - y.1) * (y.2 - y.1))

/-- The `color` value computed for the sky band (lines 119-130): `1.0`
inside the solid sun disk, otherwise the linear falloff clamped at `0`. -/
noncomputable def sky_color (x y : ℕ) : ℝ :=
  let w : ℝ := (WIDTH : ℝ)
  let h : ℝ := (HEIGHT : ℝ)
  let distance : ℝ := dist ((x : ℝ), w / 2) ((y : ℝ), SUN_POSITION_Y)
  let max_distance : ℝ := Real.sqrt (w * w + h * h) / 1.5
  if distance > 75 then
    if 0.65 - distance / max_distance < 0 then 0 else 0.65 - distance / max_distance
  else 1

/-- `background()` (lines 104-133): water band (ellipse reflection test) for
`y > LINES_TOP`, otherwise the sky gradient via `sky_color`. -/
noncomputable def background (x y : ℕ) : Option Rgb :=
  if LINES_TOP.toNat < y then
    if ((x : ℝ) - (WIDTH : ℝ) / 2) * ((x : ℝ) - (WIDTH : ℝ) / 2)
          / (SUN_REFLECTION_A * SUN_REFLECTION_A)
        + ((y : ℝ) - SUN_POSITION_Y) * ((y : ℝ) - SUN_POSITION_Y)
          / (SUN_REFLECTION_B * SUN_REFLECTION_B) < 1 then
      palette Color.Red (0.2 : ℝ)
    else palette Color.Red (0 : ℝ)
  else palette Color.Red (sky_color x y)

/-- The intensity value `background` hands to `palette` at pixel `(x, y)`:
`0.2` or `0.0` in the water band, `sky_color` in the sky band. -/
noncomputable def background_intensity (x y : ℕ) : ℝ :=
  if LINES_TOP.toNat < y then
    if ((x : ℝ) - (WIDTH : ℝ) / 2) * ((x : ℝ) - (WIDTH : ℝ) / 2)
          / (SUN_REFLECTION_A * SUN_REFLECTION_A)
        + ((y : ℝ) - SUN_POSITION_Y) * ((y : ℝ) - SUN_POSITION_Y)
          / (SUN_REFLECTION_B * SUN_REFLECTION_B) < 1 then 0.2
    else 0
  else sky_color x y

/-! ## Scanline post-processor (lines 237-245 of `build_img`) -/

/-- The grid color `palette(Color::Cyan, 1.0)` precomputed at line 238;
`palette_cyan_one` below ties it to `palette`. -/
def cyan_pixel : Rgb := (0, 200, 190)

/-- One pixel of the scanline loop (lines 239-245): on even rows, halve
every channel unless the pixel equals the grid color. -/
def scanline_pixel (y : ℕ) (p : Rgb) : Rgb :=
  if y % 2 = 0 ∧ p ≠ cyan_pixel then applyRgb (fun v => v / 2) p else p


/-! ## Helper lemmas -/

lemma rustRound_intCast {α : Type*} [LinearOrderedField α] [FloorRing α] (n : ℤ) :
    rustRound ((n : α)) = n := by
  unfold rustRound
  rcases le_or_lt 0 (n : α) with h | h
  · rw [if_pos h, round_intCast]
  · rw [if_neg (not_le.mpr h), ← Int.cast_neg, round_intCast, neg_neg]

lemma rustTrunc_intCast (n : ℤ) : rustTrunc ((n : ℚ)) = n := by
  unfold rustTrunc
  rcases le_or_lt 0 ((n : ℚ)) with h | h
  · rw [if_pos h, Int.floor_intCast]
  · rw [if_neg (not_le.mpr h), Int.ceil_intCast]

lemma rustRound_bounds {α : Type*} [LinearOrderedField α] [FloorRing α]
    {x : α} (h0 : 0 ≤ x) (h4 : x ≤ 4) : 0 ≤ rustRound x ∧ rustRound x ≤ 4 := by
  rw [rustRound, if_pos h0, round_eq]
  constructor
  · exact Int.le_floor.mpr (by push_cast; linarith)
  · have : (⌊x + 1 / 2⌋ : ℤ) ≤ ⌊(9 : α) / 2⌋ := Int.floor_le_floor (by linarith)
    have h9 : ⌊(9 : α) / 2⌋ = 4 := by
      rw [Int.floor_eq_iff]
      constructor <;> norm_num
    omega

lemma palette_isSome {α : Type*} [LinearOrderedField α] [FloorRing α]
    (c : Color) (v : α) (h0 : 0 ≤ v) (h1 : v ≤ 1) :
    (palette c v).isSome = true := by
  have hguard : ¬(v > 1 ∨ v < 0) := by push_neg; exact ⟨h1, h0⟩
  have hlen : (PALETTE.getD (color_index c) []).length = 5 := by cases c <;> rfl
  have hx0 : (0 : α) ≤ (1 - v) * 4 := by nlinarith
  have hx4 : ((1 - v) * 4 : α) ≤ 4 := by nlinarith
  obtain ⟨hr0, hr4⟩ := rustRound_bounds hx0 hx4
  have hlt : (rustRound ((1 - v) * 4)).toNat < (PALETTE.getD (color_index c) []).length := by
    rw [hlen]; omega
  rw [palette, if_neg hguard, List.getElem?_eq_getElem hlt]
  rfl

lemma palette_cyan_one : palette Color.Cyan (1 : ℚ) = some cyan_pixel := by
  norm_num [palette, PALETTE, base_colors, gradient, applyRgb, scaleChannel,
    rustTrunc, rustRound, color_index, round_eq, cyan_pixel]

/-! ## Claims about the rasterizer examples and the degenerate segment -/

/-- Claim C6: the rasterizer produces exactly the example outputs: for
`(0,0)-(4,0)` the points `(1,0),(2,0),(3,0),(4,0)` in that order; for
`(0,0)-(0,4)` the points `(0,1),(0,2),(0,3),(0,4)`; for the 45-degree line
`(0,0)-(4,4)` exactly the four gap-free diagonal points
`(1,1),(2,2),(3,3),(4,4)`. -/
theorem make_line_examples :
    make_line (0, 0) (4, 0) = [(1, 0), (2, 0), (3, 0), (4, 0)] ∧
    make_line (0, 0) (0, 4) = [(0, 1), (0, 2), (0, 3), (0, 4)] ∧
    make_line (0, 0) (4, 4) = [(1, 1), (2, 2), (3, 3), (4, 4)] := by
  refine ⟨?_, ?_, ?_⟩ <;>
    · norm_num [make_line, ddaFrom, ddaLoop, rustRound, toU32, round_eq]
      decide

/-- Claim C2 (amended): a zero-length segment is not special-cased; `steps`
is `0`, the DDA loop runs zero times, and `make_line` emits no points at all
(and does not panic: the `0.0/0.0` increments are never used). -/
theorem make_line_degenerate_empty (p : ℤ × ℤ) : make_line p p = [] := by
  simp [make_line, ddaFrom, ddaLoop, sub_self]

/-- Claim C2, counterexample to the claim as stated: for the zero-length
segment at the origin the rasterizer emits the empty list, not the single
point `(0,0)`. -/
theorem make_line_degenerate_not_single_point :
    make_line (0, 0) (0, 0) ≠ [((0 : ℕ), (0 : ℕ))] := by
  have h : make_line (0, 0) (0, 0) = [] := by
    simp [make_line, ddaFrom, ddaLoop, sub_self]
  rw [h]
  decide

/-! ## Claims about the palette lookup -/

/-- Claim C3: `palette` fails (panics, modelled as `none`) for every
intensity strictly above `1` or strictly below `0`, and succeeds for every
intensity in `[0, 1]` inclusive. -/
theorem palette_range_check {α : Type*} [LinearOrderedField α] [FloorRing α]
    (c : Color) (v : α) :
    ((v > 1 ∨ v < 0) → palette c v = none) ∧
    (0 ≤ v → v ≤ 1 → (palette c v).isSome = true) :=
  ⟨fun h => by rw [palette, if_pos h], fun h0 h1 => palette_isSome c v h0 h1⟩

/-- Claim C3, witness: the lookup panics at `1.5` and `-0.1` and succeeds
at `0.5`. -/
theorem palette_range_check_witness :
    palette Color.Red (1.5 : ℚ) = none ∧ palette Color.Red (-0.1 : ℚ) = none ∧
    (palette Color.Red (0.5 : ℚ)).isSome = true :=
  ⟨(palette_range_check Color.Red (1.5 : ℚ)).1 (Or.inl (by norm_num)),
   (palette_range_check Color.Red (-0.1 : ℚ)).1 (Or.inr (by norm_num)),
   (palette_range_check Color.Red (0.5 : ℚ)).2 (by norm_num) (by norm_num)⟩

/-- Claim C4: for intensity in `[0, 1]`, `palette` returns
`table[hue][round((1 - intensity) * 4)]`; in particular intensity `1` yields
the base color of the hue (rank 0) and intensity `0` yields black (rank 4).
-/
theorem palette_formula {α : Type*} [LinearOrderedField α] [FloorRing α]
    (c : Color) (v : α) (h0 : 0 ≤ v) (h1 : v ≤ 1) :
    palette c v = (PALETTE.getD (color_index c) [])[(rustRound ((1 - v) * 4)).toNat]? ∧
    palette c (1 : α) = some (base_colors.getD (color_index c) (0, 0, 0)) ∧
    palette c (0 : α) = some (0, 0, 0) := by
  refine ⟨?_, ?_, ?_⟩
  · rw [palette, if_neg (by push_neg; exact ⟨h1, h0⟩)]
  · have hr : rustRound ((1 - (1 : α)) * 4) = 0 := by
      have : ((1 - (1 : α)) * 4) = ((0 : ℤ) : α) := by push_cast; ring
      rw [this, rustRound_intCast]
    rw [palette, if_neg (by norm_num), hr]
    cases c <;> rfl
  · have hr : rustRound ((1 - (0 : α)) * 4) = 4 := by
      have : ((1 - (0 : α)) * 4) = ((4 : ℤ) : α) := by push_cast; ring
      rw [this, rustRound_intCast]
    rw [palette, if_neg (by norm_num), hr]
    cases c <;> rfl

/-- Claim C4, witness: concrete lookups at intensity `0.5`, `1` and `0`. -/
theorem palette_formula_witness :
    palette Color.Blue (0.5 : ℚ)
        = (PALETTE.getD (color_index Color.Blue) [])[(rustRound ((1 - (0.5 : ℚ)) * 4)).toNat]? ∧
    palette Color.Cyan (1 : ℚ) = some (base_colors.getD (color_index Color.Cyan) (0, 0, 0)) ∧
    palette Color.Red (0 : ℚ) = some (0, 0, 0) :=
  ⟨(palette_formula Color.Blue (0.5 : ℚ) (by norm_num) (by norm_num)).1,
   (palette_formula Color.Cyan (1 : ℚ) (by norm_num) (by norm_num)).2.1,
   (palette_formula Color.Red (0 : ℚ) (by norm_num) (by norm_num)).2.2⟩

/-! ## Claim about the scanline post-processor -/

/-- Claim C9: the scanline pass halves (integer division, i.e. floor) every
channel of an even-row pixel that is not the grid color, leaves even-row
grid-colored pixels unchanged, leaves odd rows unchanged, and the guarded
grid color is exactly `palette(Cyan, 1.0)`. -/
theorem scanline_spec (y : ℕ) (p : Rgb) :
    (y % 2 = 0 → p ≠ cyan_pixel →
      scanline_pixel y p = (p.1 / 2, p.2.1 / 2, p.2.2 / 2)) ∧
    (y % 2 = 0 → p = cyan_pixel → scanline_pixel y p = p) ∧
    (y % 2 ≠ 0 → scanline_pixel y p = p) ∧
    palette Color.Cyan (1 : ℚ) = some cyan_pixel := by
  refine ⟨fun he hp => ?_, fun he hp => ?_, fun ho => ?_, palette_cyan_one⟩
  · rw [scanline_pixel, if_pos ⟨he, hp⟩]; rfl
  · rw [scanline_pixel, if_neg (by simp [hp])]
  · rw [scanline_pixel, if_neg (by simp [ho])]

/-- Claim C9, witness: an even-row non-grid pixel is channel-halved, the
even-row grid pixel survives, an odd-row pixel survives. -/
theorem scanline_spec_witness :
    scanline_pixel 0 (10, 11, 13) = (5, 5, 6) ∧
    scanline_pixel 0 cyan_pixel = cyan_pixel ∧
    scanline_pixel 1 (10, 11, 13) = (10, 11, 13) := by
  refine ⟨?_, ?_, ?_⟩
  · rw [(scanline_spec 0 (10, 11, 13)).1 rfl (by decide)]
    decide
  · exact (scanline_spec 0 cyan_pixel).2.1 rfl rfl
  · exact (scanline_spec 1 (10, 11, 13)).2.2.1 (by decide)

/-! ## Claim C7: the vertical grid lines -/

/-- Claim C7: for every frame offset, the first `N_VERT_LINES + 1 = 81`
segments generated by the grid generator are the (offset-independent)
vertical segments, there are exactly 81 of them, and each runs from a point
on the bottom edge (`y = HEIGHT`) to a point at `y = LINES_TOP`. -/
theorem vertical_lines_count (v : ℕ) :
    (segments v).take vertical_segments.length = vertical_segments ∧
    vertical_segments.length = 81 ∧
    ∀ s ∈ vertical_segments, s.1.2 = (HEIGHT : ℤ) ∧ s.2.2 = LINES_TOP := by
  refine ⟨?_, ?_, ?_⟩
  · rw [segments, List.take_left]
  · rw [vertical_segments, List.length_map, int_range, List.length_map,
      List.length_range]
    decide
  · intro s hs
    rw [vertical_segments, List.mem_map] at hs
    obtain ⟨i, _, rfl⟩ := hs
    exact ⟨rfl, rfl⟩

/-- Claim C7, witness: the first vertical segment (for `i = -40`) runs from
`(-4480, HEIGHT)` down on the bottom edge to `(0, LINES_TOP)`. -/
theorem vertical_lines_count_witness :
    (((-4480 : ℤ), (480 : ℤ)), ((0 : ℤ), (240 : ℤ))).1.2 = (HEIGHT : ℤ) ∧
    (((-4480 : ℤ), (480 : ℤ)), ((0 : ℤ), (240 : ℤ))).2.2 = LINES_TOP := by
  have hmem : (((-4480 : ℤ), (480 : ℤ)), ((0 : ℤ), (240 : ℤ))) ∈ vertical_segments := by
    rw [vertical_segments, List.mem_map]
    refine ⟨-40, by decide, ?_⟩
    have e1 : (30 * ((-40 : ℤ) : ℚ) / (N_VERT_LINES : ℚ) + 1) * (WIDTH : ℚ) / 2
        = ((-4480 : ℤ) : ℚ) := by
      norm_num [N_VERT_LINES, WIDTH]
    have e2 : (2 * ((-40 : ℤ) : ℚ) / (N_VERT_LINES : ℚ) + 1) * (WIDTH : ℚ) / 2
        = ((0 : ℤ) : ℚ) := by
      norm_num [N_VERT_LINES, WIDTH]
    simp only [e1, e2, rustTrunc_intCast]
    rw [HEIGHT, LINES_TOP]
    norm_num
  exact (vertical_lines_count 0).2.2 _ hmem

/-! ## Claim C8: horizontal line spacing -/

/-- Integer-arithmetic evaluation of the scan loop's emitted rows: the
`next_scan_line` threshold `(40 * dist_from_top + 10) as u32` computed for
row `i ≥ LINES_TOP` equals `(40 * (i - 240) + 2400) / 240` exactly
(`nsl_eval` below), which lets the scan be evaluated by the kernel. -/
def horiz_scan_rows : List ℤ → ℕ → List ℤ
  | [], _ => []
  | i :: rest, steps_without_line =>
      if i < LINES_TOP then horiz_scan_rows rest (steps_without_line + 1)
      else if toU32 ((40 * (i - 240) + 2400) / 240) ≤ steps_without_line then
        i :: horiz_scan_rows rest 1
      else horiz_scan_rows rest (steps_without_line + 1)

lemma nsl_eval (i : ℤ) (h : ¬i < LINES_TOP) :
    toU32 (rustTrunc (((LINES_MAX_DISTANCE - LINES_MIN_DISTANCE : ℕ) : ℚ)
        * (((i : ℚ) - (LINES_TOP : ℚ)) / ((HEIGHT : ℚ) - (LINES_TOP : ℚ)))
        + (LINES_MIN_DISTANCE : ℚ)))
      = toU32 ((40 * (i - 240) + 2400) / 240) := by
  rw [LINES_TOP, not_lt] at h
  have hq : ((LINES_MAX_DISTANCE - LINES_MIN_DISTANCE : ℕ) : ℚ)
      * (((i : ℚ) - (LINES_TOP : ℚ)) / ((HEIGHT : ℚ) - (LINES_TOP : ℚ)))
      + (LINES_MIN_DISTANCE : ℚ)
      = ((40 * (i - 240) + 2400 : ℤ) : ℚ) / ((240 : ℕ) : ℚ) := by
    rw [LINES_MAX_DISTANCE, LINES_MIN_DISTANCE, LINES_TOP, HEIGHT]
    push_cast
    ring
  have hpos : (0 : ℚ) ≤ ((40 * (i - 240) + 2400 : ℤ) : ℚ) / ((240 : ℕ) : ℚ) := by
    apply div_nonneg _ (by norm_num)
    have hz : (0 : ℤ) ≤ 40 * (i - 240) + 2400 := by omega
    exact_mod_cast hz
  rw [hq, rustTrunc, if_pos hpos, Rat.floor_intCast_div_natCast]
  norm_num

lemma horiz_scan_eq {α : Type*} (emit : ℤ → α) :
    ∀ (l : List ℤ) (c : ℕ),
      horiz_scan emit l c = (horiz_scan_rows l c).map (fun i => (i, emit i)) := by
  intro l
  induction l with
  | nil => intro c; rfl
  | cons i rest ih =>
    intro c
    by_cases h1 : i < LINES_TOP
    · simp only [horiz_scan, horiz_scan_rows, if_pos h1]
      exact ih _
    · simp only [horiz_scan, horiz_scan_rows, if_neg h1]
      rw [nsl_eval i h1]
      by_cases h2 : toU32 ((40 * (i - 240) + 2400) / 240) ≤ c
      · rw [if_pos h2, if_pos h2, ih, List.map_cons]
      · rw [if_neg h2, if_neg h2]
        exact ih _

lemma scan_rows_eq (v : ℕ) :
    (horiz_scan (horizontal_emit v) (int_range LINES_TOP (HEIGHT : ℤ)) 0).map Prod.fst
      = horiz_scan_rows (int_range LINES_TOP (HEIGHT : ℤ)) 0 := by
  rw [horiz_scan_eq, List.map_map]
  exact List.map_id _

/-- The row gaps of a list of rows: consecutive differences. -/
def gaps (rows : List ℤ) : List ℤ := rows.zipWith (fun a b => b - a) rows.tail

/-- Claim C8: for every frame offset, the gaps (in scan rows) between the
horizon row `LINES_TOP` and the successive rows at which the scan emits a
horizontal line are non-decreasing from horizon to bottom, and every gap
lies within `[LINES_MIN_DISTANCE, LINES_MAX_DISTANCE] = [10, 50]`. -/
theorem horizontal_spacing_monotone (v : ℕ) :
    List.Chain' (· ≤ ·)
      (gaps (LINES_TOP ::
        (horiz_scan (horizontal_emit v) (int_range LINES_TOP (HEIGHT : ℤ)) 0).map Prod.fst)) ∧
    ∀ g ∈ gaps (LINES_TOP ::
        (horiz_scan (horizontal_emit v) (int_range LINES_TOP (HEIGHT : ℤ)) 0).map Prod.fst),
      (LINES_MIN_DISTANCE : ℤ) ≤ g ∧ g ≤ (LINES_MAX_DISTANCE : ℤ) := by
  rw [scan_rows_eq]
  have hrows : horiz_scan_rows (int_range LINES_TOP (HEIGHT : ℤ)) 0
      = [251, 265, 281, 301, 325, 353, 387, 428, 477] := by decide
  rw [hrows]
  have hg : gaps (LINES_TOP :: [(251 : ℤ), 265, 281, 301, 325, 353, 387, 428, 477])
      = [11, 14, 16, 20, 24, 28, 34, 41, 49] := by decide
  rw [hg]
  constructor
  · simp [List.chain'_cons]
  · decide

/-- Claim C8, witness: the first scan gap (horizon row 240 to first emitted
row 251) is 11 rows, within `[10, 50]`. -/
theorem horizontal_spacing_monotone_witness :
    (LINES_MIN_DISTANCE : ℤ) ≤ 11 ∧ (11 : ℤ) ≤ (LINES_MAX_DISTANCE : ℤ) :=
  (horizontal_spacing_monotone 0).2 11 (by
    rw [scan_rows_eq]
    have hrows : horiz_scan_rows (int_range LINES_TOP (HEIGHT : ℤ)) 0
        = [251, 265, 281, 301, 325, 353, 387, 428, 477] := by decide
    rw [hrows]
    decide)

/-! ## Claim C1: the endpoint swap of the rasterizer -/

/-- The point the DDA loop emits at accumulated step `j` when started at
`(x, y)` with increments `(xi, yi)` (exact arithmetic closed form). -/
def ddaPointQ (x y xi yi : ℚ) (j : ℕ) : ℕ × ℕ :=
  (toU32 (rustRound (x + (j : ℚ) * xi)), toU32 (rustRound (y + (j : ℚ) * yi)))

lemma ddaLoop_eq (n : ℕ) : ∀ x y xi yi : ℚ,
    ddaLoop n x y xi yi = (List.range n).map (fun k => ddaPointQ x y xi yi (k + 1)) := by
  induction n with
  | zero => intro x y xi yi; rfl
  | succ n ih =>
    intro x y xi yi
    rw [ddaLoop, ih (x + xi) (y + yi), List.range_succ_eq_map, List.map_cons,
      List.map_map]
    congr 1
    · simp [ddaPointQ]
    · refine List.map_congr_left fun k _ => ?_
      simp only [Function.comp_apply, ddaPointQ, Prod.mk.injEq]
      constructor <;> exact congrArg toU32 (congrArg _ (by push_cast; ring))

lemma ddaFrom_eq (s e : ℤ × ℤ) :
    ddaFrom s e = (List.range (max (e.1 - s.1).natAbs (e.2 - s.2).natAbs)).map
      (fun k => ddaPointQ (s.1 : ℚ) (s.2 : ℚ)
        (((e.1 - s.1 : ℤ) : ℚ) / ((max (e.1 - s.1).natAbs (e.2 - s.2).natAbs : ℕ) : ℚ))
        (((e.2 - s.2 : ℤ) : ℚ) / ((max (e.1 - s.1).natAbs (e.2 - s.2).natAbs : ℕ) : ℚ))
        (k + 1)) := by
  simp only [ddaFrom]
  rw [ddaLoop_eq]

lemma map_range_reverse {β : Type*} (f : ℕ → β) :
    ∀ n : ℕ, ((List.range n).map f).reverse = (List.range n).map (fun k => f (n - 1 - k)) := by
  intro n
  induction n with
  | zero => rfl
  | succ n ih =>
    conv_lhs => rw [List.range_succ]
    rw [List.map_append, List.reverse_append, ih]
    conv_rhs => rw [List.range_succ_eq_map]
    simp only [List.map_cons, List.map_nil, List.map_map, List.reverse_cons,
      List.reverse_nil, List.nil_append, List.cons_append, List.singleton_append]
    congr 1
    refine List.map_congr_left fun k _ => ?_
    simp only [Function.comp_apply]
    congr 1
    omega

/-- Claim C1 (amended): when the negative-slope swap fires, the swap does
not merely reorder the emitted pixels — it shifts the sampled parameter
positions from `{1, ..., steps}` to `{0, ..., steps - 1}`: reading the
swapped emission backwards gives the (rounded, cast) start pixel followed by
every unswapped emission except the last, i.e. the two runs agree on all
interior samples and trade the end pixel for the start pixel. -/
theorem make_line_swap_trades_endpoints (s e : ℤ × ℤ)
    (hm : ((e.2 : ℚ) - (s.2 : ℚ)) / ((e.1 : ℚ) - (s.1 : ℚ)) < 0)
    (hx : s.1 < e.1) :
    (make_line s e).reverse = (toU32 s.1, toU32 s.2) :: (ddaFrom s e).dropLast := by
  have hswap : make_line s e = ddaFrom e s := by
    simp only [make_line]
    rw [if_pos ⟨hm, hx⟩]
  set steps := max (e.1 - s.1).natAbs (e.2 - s.2).natAbs with hsteps_def
  have hsteps_pos : 0 < steps := by
    have hne : (e.1 - s.1).natAbs ≠ 0 := Int.natAbs_ne_zero.mpr (by omega)
    have := le_max_left (e.1 - s.1).natAbs (e.2 - s.2).natAbs
    omega
  have hstepsQ : ((steps : ℕ) : ℚ) ≠ 0 := Nat.cast_ne_zero.mpr hsteps_pos.ne'
  set xi : ℚ := ((e.1 - s.1 : ℤ) : ℚ) / (steps : ℚ) with hxi_def
  set yi : ℚ := ((e.2 - s.2 : ℤ) : ℚ) / (steps : ℚ) with hyi_def
  set P : ℕ → ℕ × ℕ := ddaPointQ (s.1 : ℚ) (s.2 : ℚ) xi yi with hP_def
  have hsteps' : max (s.1 - e.1).natAbs (s.2 - e.2).natAbs = steps := by
    rw [hsteps_def, show s.1 - e.1 = -(e.1 - s.1) by ring,
      show s.2 - e.2 = -(e.2 - s.2) by ring, Int.natAbs_neg, Int.natAbs_neg]
  have h1 : ddaFrom e s = (List.range steps).map (fun k => P (steps - 1 - k)) := by
    rw [ddaFrom_eq e s, hsteps']
    refine List.map_congr_left fun k hk => ?_
    rw [List.mem_range] at hk
    have hcast : ((steps - 1 - k : ℕ) : ℚ) = (steps : ℚ) - 1 - (k : ℚ) := by
      rw [Nat.cast_sub (by omega : k ≤ steps - 1), Nat.cast_sub (by omega : 1 ≤ steps)]
      norm_num
    have key : ∀ u w : ℤ,
        (w : ℚ) + ((k + 1 : ℕ) : ℚ) * (((u - w : ℤ) : ℚ) / (steps : ℚ))
          = (u : ℚ) + ((steps - 1 - k : ℕ) : ℚ) * (((w - u : ℤ) : ℚ) / (steps : ℚ)) := by
      intro u w
      rw [hcast]
      push_cast
      field_simp
      ring
    simp only [hP_def, ddaPointQ, hxi_def, hyi_def, Prod.mk.injEq]
    exact ⟨congrArg toU32 (congrArg _ (key s.1 e.1)),
      congrArg toU32 (congrArg _ (key s.2 e.2))⟩
  have h2 : ddaFrom s e = (List.range steps).map (fun k => P (k + 1)) := by
    rw [ddaFrom_eq s e]
  obtain ⟨t, ht⟩ : ∃ t, steps = t + 1 := ⟨steps - 1, by omega⟩
  have hdrop : (ddaFrom s e).dropLast = (List.range t).map (fun k => P (k + 1)) := by
    rw [h2, ht, List.range_succ, List.map_append]
    simp only [List.map_cons, List.map_nil]
    rw [List.dropLast_concat]
  have hP0 : P 0 = (toU32 s.1, toU32 s.2) := by
    simp [hP_def, ddaPointQ, rustRound_intCast]
  rw [hswap, h1, ← map_range_reverse, List.reverse_reverse, hdrop, ← hP0, ht,
    List.range_succ_eq_map, List.map_cons, List.map_map]
  rfl

/-- Claim C1, witness: for the segment `(0,4)-(4,0)` (slope `-1`, swap
fires), the reversed swapped emission is the start pixel followed by all but
the last unswapped emission. -/
theorem make_line_swap_trades_endpoints_witness :
    (make_line (0, 4) (4, 0)).reverse
      = (toU32 0, toU32 4) :: (ddaFrom (0, 4) (4, 0)).dropLast :=
  make_line_swap_trades_endpoints (0, 4) (4, 0) (by norm_num) (by norm_num)

/-- Claim C1, counterexample to the claim as stated: for the segment from
`(0,4)` to `(4,0)` the set of pixels emitted by `make_line` (which swaps)
differs from the set the DDA would emit without the swap: the swapped run
emits `(0,4)` but not `(4,0)`, the unswapped run vice versa. -/
theorem make_line_swap_changes_pixel_set :
    (make_line (0, 4) (4, 0)).toFinset ≠ (ddaFrom (0, 4) (4, 0)).toFinset := by
  have h1 : make_line (0, 4) (4, 0) = [(3, 1), (2, 2), (1, 3), (0, 4)] := by
    norm_num [make_line, ddaFrom, ddaLoop, rustRound, toU32, round_eq]
    decide
  have h2 : ddaFrom (0, 4) (4, 0) = [(1, 3), (2, 2), (3, 1), (4, 0)] := by
    norm_num [ddaFrom, ddaLoop, rustRound, toU32, round_eq]
    decide
  rw [h1, h2]
  decide

/-! ## Claims C5 and C10: the background shader -/

/-- Modelled from the spec's piecewise reference for the background shader
(spec section 4.3 / claim C5): water band by the ellipse inequality written
with squared quotients, sky band by the Euclidean distance `d` to the sun
center with the solid disk for `d ≤ 75` and the clamped linear falloff
`max 0 (0.65 - d / (sqrt(W² + H²) / 1.5))` outside. -/
noncomputable def background_spec (x y : ℕ) : Option Rgb :=
  if LINES_TOP.toNat < y then
    if (((x : ℝ) - (WIDTH : ℝ) / 2) / 100) ^ 2 + (((y : ℝ) - 220) / 350) ^ 2 < 1 then
      palette Color.Red (0.2 : ℝ)
    else palette Color.Red (0 : ℝ)
  else
    if Real.sqrt (((x : ℝ) - (WIDTH : ℝ) / 2) ^ 2 + ((y : ℝ) - 220) ^ 2) ≤ 75 then
      palette Color.Red (1 : ℝ)
    else
      palette Color.Red (max 0 (0.65 -
        Real.sqrt (((x : ℝ) - (WIDTH : ℝ) / 2) ^ 2 + ((y : ℝ) - 220) ^ 2)
          / (Real.sqrt ((WIDTH : ℝ) ^ 2 + (HEIGHT : ℝ) ^ 2) / 1.5)))

lemma sky_color_eq (x y : ℕ) :
    sky_color x y
      = if Real.sqrt (((x : ℝ) - (WIDTH : ℝ) / 2) ^ 2 + ((y : ℝ) - 220) ^ 2) ≤ 75
        then (1 : ℝ)
        else max 0 (0.65 -
          Real.sqrt (((x : ℝ) - (WIDTH : ℝ) / 2) ^ 2 + ((y : ℝ) - 220) ^ 2)
            / (Real.sqrt ((WIDTH : ℝ) ^ 2 + (HEIGHT : ℝ) ^ 2) / 1.5)) := by
  simp only [sky_color]
  have hdist : dist ((x : ℝ), (WIDTH : ℝ) / 2) ((y : ℝ), SUN_POSITION_Y)
      = Real.sqrt (((x : ℝ) - (WIDTH : ℝ) / 2) ^ 2 + ((y : ℝ) - 220) ^ 2) := by
    rw [dist, SUN_POSITION_Y]
    congr 1
    norm_num
    ring
  have hmax : Real.sqrt ((WIDTH : ℝ) * (WIDTH : ℝ) + (HEIGHT : ℝ) * (HEIGHT : ℝ)) / 1.5
      = Real.sqrt ((WIDTH : ℝ) ^ 2 + (HEIGHT : ℝ) ^ 2) / 1.5 := by
    congr 2
    ring
  rw [hdist, hmax]
  set d := Real.sqrt (((x : ℝ) - (WIDTH : ℝ) / 2) ^ 2 + ((y : ℝ) - 220) ^ 2) with hd
  set M := Real.sqrt ((WIDTH : ℝ) ^ 2 + (HEIGHT : ℝ) ^ 2) / 1.5 with hM
  rcases le_or_lt d 75 with h | h
  · rw [if_neg (not_lt.mpr h), if_pos h]
  · rw [if_pos h, if_neg (not_le.mpr h)]
    rcases lt_or_le (0.65 - d / M) 0 with h2 | h2
    · rw [if_pos h2, max_eq_left h2.le]
    · rw [if_neg (not_lt.mpr h2), max_eq_right h2]

/-- Claim C5: for every pixel of the canvas, the background shader equals
the spec's piecewise reference `background_spec`: water band for
`y > LINES_TOP` with the ellipse test (intensity `0.2` inside, `0.0`
outside), sky band otherwise (`y = LINES_TOP` included) with intensity `1.0`
for `d ≤ 75` (boundary included) and `max 0 (0.65 - d / max_distance)`
beyond. -/
theorem background_matches_spec (x y : ℕ) (hx : x < WIDTH) (hy : y < HEIGHT) :
    background x y = background_spec x y := by
  rw [background, background_spec]
  by_cases hb : LINES_TOP.toNat < y
  · rw [if_pos hb, if_pos hb]
    have hcond : ((x : ℝ) - (WIDTH : ℝ) / 2) * ((x : ℝ) - (WIDTH : ℝ) / 2)
          / (SUN_REFLECTION_A * SUN_REFLECTION_A)
        + ((y : ℝ) - SUN_POSITION_Y) * ((y : ℝ) - SUN_POSITION_Y)
          / (SUN_REFLECTION_B * SUN_REFLECTION_B)
        = (((x : ℝ) - (WIDTH : ℝ) / 2) / 100) ^ 2 + (((y : ℝ) - 220) / 350) ^ 2 := by
      rw [SUN_REFLECTION_A, SUN_REFLECTION_B, SUN_POSITION_Y]
      ring_nf
    rw [hcond]
  · rw [if_neg hb, if_neg hb, sky_color_eq, apply_ite (palette Color.Red)]

/-- Claim C5, witness: the shader agrees with the reference at the top-left
pixel. -/
theorem background_matches_spec_witness :
    background 0 0 = background_spec 0 0 :=
  background_matches_spec 0 0 (by norm_num [WIDTH]) (by norm_num [HEIGHT])

lemma sky_color_bounds (x y : ℕ) : 0 ≤ sky_color x y ∧ sky_color x y ≤ 1 := by
  simp only [sky_color]
  set d := dist ((x : ℝ), (WIDTH : ℝ) / 2) ((y : ℝ), SUN_POSITION_Y) with hd
  set M := Real.sqrt ((WIDTH : ℝ) * (WIDTH : ℝ) + (HEIGHT : ℝ) * (HEIGHT : ℝ)) / 1.5 with hM
  have hd0 : 0 ≤ d := Real.sqrt_nonneg _
  have hM0 : 0 < M := by
    rw [hM]
    apply div_pos _ (by norm_num)
    apply Real.sqrt_pos.mpr
    rw [WIDTH, HEIGHT]
    norm_num
  by_cases h : d > 75
  · rw [if_pos h]
    by_cases h2 : 0.65 - d / M < 0
    · rw [if_pos h2]
      norm_num
    · rw [if_neg h2]
      have hq : 0 ≤ d / M := div_nonneg hd0 hM0.le
      constructor
      · linarith [not_lt.mp h2]
      · linarith
  · rw [if_neg h]
    norm_num

/-- Claim C10: for every pixel of the canvas, the intensity the background
shader hands to `palette` lies in `[0, 1]` (water band: `0.2` or `0`; sky
band: `1` or the clamped falloff, which is at most `0.65`), the shader is
exactly that palette call, and therefore the out-of-range panic branch of
`palette` is unreachable from `background` (the result is always `some`). -/
theorem background_intensity_in_range (x y : ℕ) (hx : x < WIDTH) (hy : y < HEIGHT) :
    (0 ≤ background_intensity x y ∧ background_intensity x y ≤ 1) ∧
    background x y = palette Color.Red (background_intensity x y) ∧
    (background x y).isSome = true := by
  obtain ⟨hs0, hs1⟩ := sky_color_bounds x y
  have hbounds : 0 ≤ background_intensity x y ∧ background_intensity x y ≤ 1 := by
    rw [background_intensity]
    by_cases hb : LINES_TOP.toNat < y
    · rw [if_pos hb]
      by_cases hc : ((x : ℝ) - (WIDTH : ℝ) / 2) * ((x : ℝ) - (WIDTH : ℝ) / 2)
            / (SUN_REFLECTION_A * SUN_REFLECTION_A)
          + ((y : ℝ) - SUN_POSITION_Y) * ((y : ℝ) - SUN_POSITION_Y)
            / (SUN_REFLECTION_B * SUN_REFLECTION_B) < 1
      · rw [if_pos hc]
        norm_num
      · rw [if_neg hc]
        norm_num
    · rw [if_neg hb]
      exact ⟨hs0, hs1⟩
  have heq : background x y = palette Color.Red (background_intensity x y) := by
    rw [background, background_intensity]
    by_cases hb : LINES_TOP.toNat < y
    · rw [if_pos hb, if_pos hb]
      by_cases hc : ((x : ℝ) - (WIDTH : ℝ) / 2) * ((x : ℝ) - (WIDTH : ℝ) / 2)
            / (SUN_REFLECTION_A * SUN_REFLECTION_A)
          + ((y : ℝ) - SUN_POSITION_Y) * ((y : ℝ) - SUN_POSITION_Y)
            / (SUN_REFLECTION_B * SUN_REFLECTION_B) < 1
      · rw [if_pos hc, if_pos hc]
      · rw [if_neg hc, if_neg hc]
    · rw [if_neg hb, if_neg hb]
  refine ⟨hbounds, heq, ?_⟩
  rw [heq]
  exact palette_isSome Color.Red _ hbounds.1 hbounds.2

/-- Claim C10, witness: at the top-left pixel the intensity is in range and
the shader result is defined. -/
theorem background_intensity_in_range_witness :
    (0 ≤ background_intensity 0 0 ∧ background_intensity 0 0 ≤ 1) ∧
    background 0 0 = palette Color.Red (background_intensity 0 0) ∧
    (background 0 0).isSome = true :=
  background_intensity_in_range 0 0 (by norm_num [WIDTH]) (by norm_num [HEIGHT])
